import Mathlib

/-!
Verification development for `src/cfn-bootstrap/dl_cfn_setup_v2.py`, the
two-role cluster-bootstrap synchronization script.  The script's message
processing, polling loops, budget arithmetic and membership construction are
shallowly embedded below; machine times are modelled as naturals (seconds),
receive calls as instantaneous, and each loop's virtual clock as the
`next_execution_ts` tick schedule of the source (start + 30k).
-/

/-- The Python exception kinds relevant to the script's handlers:
`json.loads` raises `ValueError` on malformed input; subscripting a non-dict
raises `TypeError`; a missing dict key raises `KeyError`.  The handlers at
lines 160 and 209 catch only `TypeError` and `KeyError`. -/
inductive PyErr where
  | typeError
  | keyError
  | valueError
  deriving DecidableEq, Repr

/-- A leaf JSON value as it appears as a field of the script's flat message
payloads: null, a string, a number, or an array of strings (`worker-ips`). -/
inductive JLeaf where
  | snull
  | sstr (s : String)
  | snum (n : Int)
  | sarr (xs : List String)
  deriving DecidableEq, Repr

/-- A parsed JSON payload: either a bare leaf (including `null`) or a flat
object mapping field names to leaves — the shape of every message this
script exchanges. -/
inductive JVal where
  | scalar (v : JLeaf)
  | obj (fields : List (String × JLeaf))
  deriving DecidableEq, Repr

/-- Python subscripting `content[key]`: a dict lookup succeeds or raises
`KeyError`; subscripting a non-dict value raises `TypeError`. -/
def JVal.getItem : JVal → String → Except PyErr JLeaf
  | .obj fields, k =>
    match fields.lookup k with
    | some v => .ok v
    | none => .error .keyError
  | .scalar _, _ => .error .typeError

/-- Whether a value can be used as a Python dict key: lists are unhashable
(`TypeError`), scalars are hashable. -/
def JLeaf.hashable : JLeaf → Bool
  | .sarr _ => false
  | _ => true

/-- The body of a received SQS message: either text that `json.loads`
rejects (raising `ValueError`), or a parsed JSON payload. -/
inductive MsgBody where
  | invalid
  | parsed (content : JVal)
  deriving DecidableEq, Repr

/-- The `asg_success_message` dict of `wait_until_asg_success` (line 127):
an insertion-ordered map from the `asg` field's value to the full notice. -/
abbrev Ledger := List (JLeaf × JVal)

/-- Python `content['asg'] in asg_success_message` (line 148). -/
def ledgerHas (ledger : Ledger) (k : JLeaf) : Bool :=
  ledger.any fun p => p.1 == k

/-- The dedup merge of lines 148–157: store the notice under its group key
only when the key is absent, otherwise discard the duplicate. -/
def mergeNotice (ledger : Ledger) (k : JLeaf) (content : JVal) : Ledger :=
  if ledgerHas ledger k then ledger else ledger ++ [(k, content)]

/-- The outcome of the per-message `try` block of `wait_until_asg_success`
(lines 143–163), which depends only on the message body, not on the ledger:
malformed JSON crashes the loop (`ValueError` is not among the caught
exception types); a caught `TypeError`/`KeyError` skips the message without
deleting it; every other message is deleted, and is additionally merged into
the ledger exactly when it is an `asg-setup` success notice with a hashable
`asg` key. -/
inductive AsgMsgAction where
  | crash (e : PyErr)
  | skipNoDelete
  | deleteOnly
  | mergeAndDelete (k : JLeaf) (content : JVal)
  deriving DecidableEq, Repr

/-- Transcription of the control flow of lines 143–163: `json.loads`, the
short-circuit condition `content is not None and content['event'] ==
'asg-setup' and content['status'] == 'success'`, the dedup merge, the
unconditional `delete_message` at line 159, and the
`except (TypeError, KeyError)` handler. -/
def classifyAsgMsg : MsgBody → AsgMsgAction
  | .invalid => .crash .valueError
  | .parsed content =>
    if content = JVal.scalar .snull then .deleteOnly
    else
      match content.getItem "event" with
      | .error _ => .skipNoDelete
      | .ok ev =>
        if ev = JLeaf.sstr "asg-setup" then
          match content.getItem "status" with
          | .error _ => .skipNoDelete
          | .ok st =>
            if st = JLeaf.sstr "success" then
              match content.getItem "asg" with
              | .error _ => .skipNoDelete
              | .ok k =>
                if k.hashable then .mergeAndDelete k content
                else .skipNoDelete
            else .deleteOnly
        else .deleteOnly

/-- One message through the body of the `for msg in recvd_messages` loop of
`wait_until_asg_success`: returns the updated ledger and whether the message
was deleted from the queue, or the uncaught exception that aborts the loop. -/
def processAsgMsg (ledger : Ledger) (b : MsgBody) : Except PyErr (Ledger × Bool) :=
  match classifyAsgMsg b with
  | .crash e => .error e
  | .skipNoDelete => .ok (ledger, false)
  | .deleteOnly => .ok (ledger, true)
  | .mergeAndDelete k content => .ok (mergeNotice ledger k content, true)

/-- One received batch (up to 10 messages) through the `for` loop of
`wait_until_asg_success`, threading the ledger. -/
def processAsgBatch (ledger : Ledger) : List MsgBody → Except PyErr Ledger
  | [] => .ok ledger
  | b :: rest =>
    match processAsgMsg ledger b with
    | .error e => .error e
    | .ok (l', _) => processAsgBatch l' rest

/-- How `wait_until_asg_success` left its loop: all (exactly two) group
notices collected, or the deadline check tripped. -/
inductive AsgOutcome where
  | success
  | timedOut
  deriving DecidableEq, Repr

/-- A complete run of the `wait_until_asg_success` loop: the final ledger,
the virtual elapsed time at exit, the exit kind, and the absolute virtual
times the loop slept until (the successive values of `next_execution_ts`
passed to `time.sleep`). -/
structure AsgRun where
  ledger : Ledger
  elapsed : Nat
  outcome : AsgOutcome
  sleepTargets : List Nat
  deriving DecidableEq, Repr

/-- The `while True` loop of `wait_until_asg_success` (lines 132–178) on a
schedule of received batches (one per poll, empty once exhausted), with a
virtual clock: receives are instantaneous, so the k-th iteration runs at
elapsed time 30·k and `next_execution_ts` after the k-th increment is
start + 30·(k+1).  The loop breaks with success when the ledger holds
exactly 2 entries (line 165), breaks with timeout when the next tick passes
`start_time + timeout` (line 170), and otherwise sleeps until the next
tick.  An uncaught per-message exception propagates. -/
def waitAsgLoop (ledger : Ledger) (sched : List (List MsgBody)) (timeout tick : Nat) :
    Except PyErr AsgRun :=
  match processAsgBatch ledger (sched.headD []) with
  | .error e => .error e
  | .ok l' =>
    if l'.length = 2 then .ok ⟨l', 30 * tick, .success, []⟩
    else if h : 30 * (tick + 1) > timeout then .ok ⟨l', 30 * tick, .timedOut, []⟩
    else
      match waitAsgLoop l' sched.tail timeout (tick + 1) with
      | .error e => .error e
      | .ok r => .ok ⟨r.ledger, r.elapsed, r.outcome, 30 * (tick + 1) :: r.sleepTargets⟩
termination_by timeout - tick
decreasing_by omega

/-- Delivering the same message body `n` successive times to the
`wait_until_asg_success` message handler, as the at-least-once queue may do. -/
def deliverRepeated : Nat → Ledger → MsgBody → Except PyErr Ledger
  | 0, ledger, _ => .ok ledger
  | n + 1, ledger, b =>
    match processAsgMsg ledger b with
    | .error e => .error e
    | .ok (l', _) => deliverRepeated n l' b

/-- The outcome of one message through the body of the receive loop of
`wait_for_worker_setup_message` (lines 198–212). -/
inductive WorkerMsgStep where
  | skip
  | ret (masterIp workerIps : JLeaf)
  | crash (e : PyErr)
  deriving DecidableEq, Repr

/-- Transcription of lines 201–212: parse the body (`ValueError` uncaught),
skip `null` payloads and payloads whose `event` is not `'worker-setup'`,
return `(content['master-ip'], content['worker-ips'])` on a match, and catch
`TypeError`/`KeyError` by skipping. -/
def processWorkerMsg : MsgBody → WorkerMsgStep
  | .invalid => .crash .valueError
  | .parsed content =>
    if content = JVal.scalar .snull then .skip
    else
      match content.getItem "event" with
      | .error _ => .skip
      | .ok ev =>
        if ev = JLeaf.sstr "worker-setup" then
          match content.getItem "master-ip", content.getItem "worker-ips" with
          | .ok m, .ok w => .ret m w
          | _, _ => .skip
        else .skip

/-- The `for msg in recvd_messages` loop of `wait_for_worker_setup_message`:
returns the pair from the first message it acts on, `none` when the batch is
exhausted, or propagates an uncaught exception. -/
def processWorkerBatch : List MsgBody → Except PyErr (Option (JLeaf × JLeaf))
  | [] => .ok none
  | b :: rest =>
    match processWorkerMsg b with
    | .crash e => .error e
    | .ret m w => .ok (some (m, w))
    | .skip => processWorkerBatch rest

/-- A message body that `wait_for_worker_setup_message` returns on: a JSON
object whose `event` is `'worker-setup'` and which carries both the
`master-ip` and `worker-ips` fields. -/
def isValidWorkerSetup : MsgBody → Bool
  | .invalid => false
  | .parsed (.scalar _) => false
  | .parsed (.obj fields) =>
    (fields.lookup "event" == some (JLeaf.sstr "worker-setup"))
      && (fields.lookup "master-ip").isSome && (fields.lookup "worker-ips").isSome

/-- The `(content['master-ip'], content['worker-ips'])` pair of a broadcast
message, when both fields are present. -/
def extractPair : MsgBody → Option (JLeaf × JLeaf)
  | .invalid => none
  | .parsed content =>
    match content.getItem "master-ip", content.getItem "worker-ips" with
    | .ok m, .ok w => some (m, w)
    | _, _ => none

/-- The parameters of an `sqs_con.receive_message` call. -/
structure SqsReceiveCall where
  numberMessages : Nat
  visibilityTimeout : Nat
  deriving DecidableEq, Repr

/-- The receive call of `wait_for_worker_setup_message` (line 196):
`number_messages=10, visibility_timeout=0`. -/
def workerSetupReceiveCall : SqsReceiveCall := ⟨10, 0⟩

/-- The receive call of `wait_until_asg_success` (line 138):
`number_messages=10, visibility_timeout=60`. -/
def asgSuccessReceiveCall : SqsReceiveCall := ⟨10, 60⟩

/-- A Python value as returned by `wait_for_worker_setup_message`: either
the bare `None` of the timeout path (line 220) or the 2-tuple of the success
path (line 208). -/
inductive PyVal where
  | pynone
  | pytuple2 (a b : JLeaf)
  deriving DecidableEq, Repr

/-- The `while True` loop of `wait_for_worker_setup_message` (lines
193–228), threading the channel state explicitly.  Because the receive uses
`visibility_timeout=0` every poll sees the same visible messages (modelled:
`take 10` of the channel), and the function contains no `delete_message`
call, so the channel is returned unchanged on every path.  Tick arithmetic
is the same `next_execution_ts` schedule as `wait_until_asg_success`; on
timeout the function returns the single value `None`, not a pair. -/
def waitWorkerLoopCh (ch : List MsgBody) (timeout tick : Nat) :
    Except PyErr PyVal × List MsgBody :=
  match processWorkerBatch (ch.take 10) with
  | .error e => (.error e, ch)
  | .ok (some (m, w)) => (.ok (.pytuple2 m w), ch)
  | .ok none =>
    if h : 30 * (tick + 1) > timeout then (.ok .pynone, ch)
    else waitWorkerLoopCh ch timeout (tick + 1)
termination_by timeout - tick
decreasing_by omega

/-- Python tuple unpacking `a, b = v`: unpacking `None` raises `TypeError`
("'NoneType' object is not iterable"). -/
def pyUnpack2 : PyVal → Except PyErr (JLeaf × JLeaf)
  | .pytuple2 a b => .ok (a, b)
  | .pynone => .error .typeError

/-- How the worker branch of `main` (lines 493–498) ends: via the explicit
`is None` check's `sys.exit(1)` (line 497), via the outermost
`except Exception` handler's `sys.exit(1)` (line 505), or by proceeding to
`setup_env_variables` with an unpacked pair. -/
inductive WorkerExit where
  | noneCheckExit
  | outerHandlerExit
  | proceeded (masterIp workerIps : JLeaf)
  deriving DecidableEq, Repr

/-- Transcription of the worker branch of `main` (lines 493–498) inside the
outer `try`: unpack the return value of `wait_for_worker_setup_message`, run the
explicit `is None` check, else proceed; any exception (including the
`TypeError` from unpacking `None`) lands in the outermost handler. -/
def mainWorkerBranch (r : Except PyErr PyVal) : WorkerExit :=
  match r with
  | .error _ => .outerHandlerExit
  | .ok v =>
    match pyUnpack2 v with
    | .error _ => .outerHandlerExit
    | .ok (m, w) =>
      if m = JLeaf.snull || w = JLeaf.snull then .noneCheckExit
      else .proceeded m w

/-- What the post-poll branch of `wait_until_instances_active` (lines
299–320) decides after one pass over the fetched reservations. -/
inductive ResolverDecision where
  | success
  | fetchMore
  | timeoutBreak
  | sleepRetry
  deriving DecidableEq, Repr

/-- Transcription of lines 299–320, evaluated after `next_execution_ts` has
been incremented by 30 (line 299): break with success when no instance ids
are pending; `continue` (no sleep) while a pagination token is present;
break logging `Reached timeout` when `next_execution_ts < start_time +
timeout` (line 309, as written in the source); otherwise sleep until
`next_execution_ts` and poll again. -/
def resolverDecision (pendingCount : Nat) (nextToken : Option String)
    (nextExecutionTs startTime timeout : Nat) : ResolverDecision :=
  if pendingCount = 0 then .success
  else if nextToken.isSome then .fetchMore
  else if nextExecutionTs < startTime + timeout then .timeoutBreak
  else .sleepRetry

/-- The `while True` loop of `check_instance_role_availability` (lines
425–455) on a schedule of metadata-poll results (`true` when the named
role's credential record is present; an exhausted schedule keeps answering
`false`): return `True` as soon as the record is present, break and return
`False` once the next tick passes the deadline, otherwise sleep to the next
tick and poll again. -/
def roleGateLoop (avail : List Bool) (timeout tick : Nat) : Bool :=
  if avail.headD false then true
  else if h : 30 * (tick + 1) > timeout then false
  else roleGateLoop avail.tail timeout (tick + 1)
termination_by timeout - tick
decreasing_by omega

/-- The phases `main` (lines 480–501) runs after the role gate, in order.
The gate's return value is not bound by `main` (line 483:
`check_instance_role_availability(AWS_DL_ROLE_NAME, setup_timeout)` as a
bare statement), so the continuation cannot depend on it — the parameter is
unused exactly because the source discards the result. -/
def mainPhasesAfterGate (gateResult : Bool) (nodeType : String) : List String :=
  ["check_instance_role_availability"]
    ++ (if nodeType = "master" then
          ["setup_worker_metadata", "setup_env_variables",
           "send_worker_setup_msg", "send_cfn_success_signal"]
        else if nodeType = "worker" then
          ["wait_for_worker_setup_message", "setup_env_variables"]
        else ["sys.exit(1)"])

/-- The budget hand-off used after each phase: `main` line 484
(`setup_timeout = setup_timeout - (time.time() - start_time)`) and
`setup_worker_metadata` line 373 (`timeout = setup_timeout - (time.time() -
start_time)`) — plain subtraction of the consumed time, with no flooring. -/
def splitBudget (budget consumed : Int) : Int := budget - consumed

/-- Construction of the worker address list in `setup_worker_metadata`
(lines 384–398): start from `[master_instance_ip]`, extend with the
resolved worker addresses when any worker was launched, and sort. -/
def buildWorkerIps (masterIp : String) (workerVals : List String) : List String :=
  let ips := [masterIp]
  let ips := if workerVals.length = 0 then ips else ips ++ workerVals
  List.insertionSort (· ≤ ·) ips

/-- The tail of `setup_worker_metadata` after `wait_until_instances_active`
returns (lines 381–400): `sys.exit(1)` — modelled as `Except.error 1` —
unless exactly one master instance resolved, else build the membership view
from the master address and the worker address map's values. -/
def setupWorkerMetadataAfterResolve (masterInstances workerInstances : List (String × String)) :
    Except Nat (String × List String) :=
  if masterInstances.length ≠ 1 then .error 1
  else
    let masterIp := ((masterInstances.map Prod.snd).headD "")
    .ok (masterIp, buildWorkerIps masterIp (workerInstances.map Prod.snd))

/-- The remainder of the master branch of `main` (lines 488–491) after
`setup_worker_metadata` returns or exits: on a failure exit nothing else
runs; on success the environment setup, the worker-setup broadcast and the
stack signal follow. -/
def masterBranchActions (r : Except Nat (String × List String)) : List String :=
  match r with
  | .error _ => ["sys.exit(1)"]
  | .ok _ => ["setup_env_variables", "send_worker_setup_msg", "send_cfn_success_signal"]

/-- A well-formed `asg-setup` success notice for a worker group, used as a
concrete witness input. -/
def demoWorkerNotice : JVal :=
  .obj [("min", .snum 1), ("desired", .snum 2), ("max", .snum 2),
        ("launched", .snum 2), ("status", .sstr "success"),
        ("asg", .sstr "cfn-test-WorkerAutoScalingGroup-1HPKVL6PJEVQS"),
        ("event", .sstr "asg-setup")]

/-- A well-formed `asg-setup` notice whose `status` is `failure`, used as a
concrete counterexample input. -/
def demoFailureNotice : JVal :=
  .obj [("status", .sstr "failure"), ("asg", .sstr "cfn-test-WorkerASG-1"),
        ("event", .sstr "asg-setup")]

/-- A well-formed `worker-setup` broadcast message, used as a concrete
witness input. -/
def demoBroadcast : MsgBody :=
  .parsed (.obj [("event", .sstr "worker-setup"),
                 ("master-ip", .sstr "10.0.0.1"),
                 ("worker-ips", .sarr ["10.0.0.1", "10.0.0.2"])])

/-- A message of an unrelated event kind, used as a concrete witness input
for the skip behaviour of the broadcast wait. -/
def demoOtherEvent : MsgBody :=
  .parsed (.obj [("event", .sstr "asg-setup"), ("status", .sstr "success")])

/-! ## Helper lemmas -/

theorem roleGateLoop_nil_aux : ∀ n timeout tick, timeout ≤ 30 * tick + 30 * n →
    roleGateLoop [] timeout tick = false := by
  intro n
  induction n with
  | zero =>
    intro timeout tick hb
    unfold roleGateLoop
    rw [dif_pos (show 30 * (tick + 1) > timeout by omega)]
    simp
  | succ m ih =>
    intro timeout tick hb
    unfold roleGateLoop
    by_cases hc : 30 * (tick + 1) > timeout
    · rw [dif_pos hc]; simp
    · rw [dif_neg hc]
      simp only [List.tail_nil]
      rw [ih timeout (tick + 1) (by omega)]
      simp

/-! ## C1 -/

/-- C1: the membership-resolution loop of `wait_until_instances_active` is
claimed to sleep and re-poll while pending ids remain, pagination is
exhausted, and the deadline has not passed, and to stop with a timeout only
once the deadline is past.  The code does the opposite: with 1 pending id,
no pagination token, `next_execution_ts` at 30 and 570 of 600 budget
seconds still remaining, the branch at line 309 (`elif next_execution_ts <
start_time + timeout`) breaks out logging `Reached timeout`; and once the
deadline has actually passed (tick 630 of a 600-second budget) the same
branch fails and the loop sleeps and polls again instead of stopping.  The
success and pagination arms behave as claimed. -/
theorem resolver_deadline_check_inverted :
    resolverDecision 1 none 30 0 600 = ResolverDecision.timeoutBreak
  ∧ resolverDecision 1 none 630 0 600 = ResolverDecision.sleepRetry
  ∧ resolverDecision 0 none 30 0 600 = ResolverDecision.success
  ∧ resolverDecision 1 (some "token") 30 0 600 = ResolverDecision.fetchMore := by
  refine ⟨rfl, ?_, rfl, rfl⟩
  unfold resolverDecision
  norm_num

/-! ## C5 -/

/-- C5 counterexample: with a 10-second budget and 15 seconds consumed, the
hand-off of `main` line 484 / `setup_worker_metadata` line 373 produces a
budget of −5, not the claimed floor of zero. -/
theorem split_budget_negative_cex :
    splitBudget 10 15 = -5 ∧ splitBudget 10 15 < 0 := by
  constructor <;> norm_num [splitBudget]

/-- C5 amended: the budget handed to the next phase equals the previous
budget minus the consumed time (chaining across two hand-offs accordingly),
it never grows when consumption is non-negative, and when the consumed time
reaches the original budget the next budget is at most zero — but it is not
clamped, so it can be strictly negative. -/
theorem split_budget_amended :
    (∀ total c1 c2 : Int, splitBudget (splitBudget total c1) c2 = total - (c1 + c2))
  ∧ (∀ b c : Int, 0 ≤ c → splitBudget b c ≤ b)
  ∧ (∀ b c : Int, b ≤ c → splitBudget b c ≤ 0) := by
  refine ⟨fun total c1 c2 => ?_, fun b c hc => ?_, fun b c hbc => ?_⟩ <;>
    simp [splitBudget] <;> omega

/-- C5 witness: the amended statement at budget 100, consumptions 30 and
then 90 (over-consumption), and the non-negativity instance. -/
theorem split_budget_amended_witness :
    splitBudget (splitBudget 100 30) 90 = -20
  ∧ splitBudget 100 30 ≤ 100
  ∧ splitBudget 70 90 ≤ 0 := by
  refine ⟨?_, split_budget_amended.2.1 100 30 (by norm_num),
    split_budget_amended.2.2 70 90 (by norm_num)⟩
  have h := split_budget_amended.1 100 30 90
  rw [h]; norm_num

/-! ## C6 -/

/-- C6: the worker address list built by `setup_worker_metadata` is the
ascending sort of the master address prepended to the resolved worker
addresses — it is sorted, it is a permutation of
`masterIp :: workerAddresses`, and the master's own address is always an
element of it. -/
theorem membership_view_sorted_self_inclusion (masterIp : String) (workerVals : List String) :
    (buildWorkerIps masterIp workerVals).Sorted (· ≤ ·)
  ∧ (buildWorkerIps masterIp workerVals).Perm (masterIp :: workerVals)
  ∧ masterIp ∈ buildWorkerIps masterIp workerVals := by
  have hbase : (if workerVals.length = 0 then [masterIp] else [masterIp] ++ workerVals)
      = masterIp :: workerVals := by
    by_cases h : workerVals.length = 0
    · rw [if_pos h, List.length_eq_zero.mp h]
    · rw [if_neg h]; rfl
  have heq : buildWorkerIps masterIp workerVals
      = List.insertionSort (· ≤ ·) (masterIp :: workerVals) := by
    show List.insertionSort (· ≤ ·)
        (if workerVals.length = 0 then [masterIp] else [masterIp] ++ workerVals)
      = List.insertionSort (· ≤ ·) (masterIp :: workerVals)
    rw [hbase]
  have hperm := List.perm_insertionSort (α := String) (· ≤ ·) (masterIp :: workerVals)
  refine ⟨?_, ?_, ?_⟩
  · rw [heq]; exact List.sorted_insertionSort (· ≤ ·) (masterIp :: workerVals)
  · rw [heq]; exact hperm
  · rw [heq]; exact hperm.mem_iff.mpr (List.mem_cons_self masterIp workerVals)

/-! ## C9 -/

/-- C9: when the resolved master-instance map does not hold exactly one
entry, `setup_worker_metadata` takes the `sys.exit(1)` at line 383 — the
run ends with the failure exit, and the master branch of `main` never
reaches `send_worker_setup_msg` (the broadcast) nor any later phase. -/
theorem master_count_precondition_fatal
    (masterInstances workerInstances : List (String × String))
    (h : masterInstances.length ≠ 1) :
    setupWorkerMetadataAfterResolve masterInstances workerInstances = .error 1
  ∧ "send_worker_setup_msg" ∉
      masterBranchActions (setupWorkerMetadataAfterResolve masterInstances workerInstances) := by
  have hres : setupWorkerMetadataAfterResolve masterInstances workerInstances = .error 1 := by
    unfold setupWorkerMetadataAfterResolve
    rw [if_pos h]
  refine ⟨hres, ?_⟩
  rw [hres]
  simp [masterBranchActions]

/-- C9 witness: two resolved master instances (a mis-configured stack)
trigger the failure exit and suppress the broadcast. -/
theorem master_count_precondition_fatal_witness :
    setupWorkerMetadataAfterResolve
      [("i-1", "10.0.0.1"), ("i-2", "10.0.0.2")] [("i-3", "10.0.0.3")] = .error 1
  ∧ "send_worker_setup_msg" ∉
      masterBranchActions (setupWorkerMetadataAfterResolve
        [("i-1", "10.0.0.1"), ("i-2", "10.0.0.2")] [("i-3", "10.0.0.3")]) :=
  master_count_precondition_fatal _ _ (by decide)

/-! ## C2 -/

/-- C2 counterexample: `main` line 483 calls
`check_instance_role_availability` as a bare statement and never binds or
tests its result, so after a `false` gate result the flow still runs exactly
the phases it runs after a `true` one — in particular the master phase
`setup_worker_metadata` is reached.  A `false` result is therefore not
fatal, contrary to the claim. -/
theorem role_gate_result_ignored_cex :
    mainPhasesAfterGate false "master" = mainPhasesAfterGate true "master"
  ∧ "setup_worker_metadata" ∈ mainPhasesAfterGate false "master"
  ∧ "wait_for_worker_setup_message" ∈ mainPhasesAfterGate false "worker" := by
  refine ⟨rfl, ?_, ?_⟩ <;> simp [mainPhasesAfterGate]

/-- C2 amended: `check_instance_role_availability` returns `true` as soon
as a poll finds the role's credential record and `false` once the budget is
exhausted with the record never appearing, but in the top-level flow the
result is discarded: `main` proceeds past the role gate to the master/worker
phases whatever the gate returned. -/
theorem role_gate_behavior_amended :
    (∀ (rest : List Bool) (timeout tick : Nat), roleGateLoop (true :: rest) timeout tick = true)
  ∧ (∀ timeout tick : Nat, roleGateLoop [] timeout tick = false)
  ∧ (∀ (g : Bool) (nodeType : String),
      mainPhasesAfterGate g nodeType = mainPhasesAfterGate true nodeType)
  ∧ (∀ g : Bool, "setup_worker_metadata" ∈ mainPhasesAfterGate g "master") := by
  refine ⟨fun rest timeout tick => ?_, fun timeout tick => ?_, fun g nodeType => rfl,
    fun g => ?_⟩
  · unfold roleGateLoop
    simp
  · exact roleGateLoop_nil_aux timeout timeout tick (by omega)
  · simp [mainPhasesAfterGate]

/-! ## C3 -/

/-- C3 counterexample: a well-formed `asg-setup` notice whose `status` is
`failure` is deleted from the queue (line 159 runs) although it is never
merged into the ledger, refuting "deleted only when it is a well-formed
success notice that has been merged"; and a syntactically malformed body
raises `ValueError`, which `except (TypeError, KeyError)` does not catch,
so the receive loop crashes rather than leaving the message and
continuing. -/
theorem asg_msg_handling_cex :
    processAsgMsg [] (MsgBody.parsed demoFailureNotice) = .ok ([], true)
  ∧ processAsgMsg [] MsgBody.invalid = .error PyErr.valueError := by
  exact ⟨rfl, rfl⟩

/-- C3 amended: a payload that parses but whose field access raises a
caught `TypeError`/`KeyError` (missing `event`, `status` or `asg`, non-dict
payload, unhashable `asg` key) is logged and the message is left undeleted
and the loop continues; but a syntactically malformed payload raises an
uncaught `ValueError` that aborts the receive loop; and a message is
deleted whenever its processing raises no exception — null payloads,
other-event messages, and non-success notices included — not only
well-formed success notices merged into the ledger (merged success notices
are deleted too). -/
theorem asg_msg_handling_amended :
    (∀ (ledger : Ledger) (fields : List (String × JLeaf)),
      fields.lookup "event" = none →
      processAsgMsg ledger (.parsed (.obj fields)) = .ok (ledger, false))
  ∧ (∀ (ledger : Ledger) (v : JLeaf), v ≠ .snull →
      processAsgMsg ledger (.parsed (.scalar v)) = .ok (ledger, false))
  ∧ (∀ (ledger : Ledger) (c : JVal) (e : PyErr),
      c.getItem "event" = .ok (.sstr "asg-setup") →
      c.getItem "status" = .error e →
      processAsgMsg ledger (.parsed c) = .ok (ledger, false))
  ∧ (∀ (ledger : Ledger) (c : JVal) (e : PyErr),
      c.getItem "event" = .ok (.sstr "asg-setup") →
      c.getItem "status" = .ok (.sstr "success") →
      c.getItem "asg" = .error e →
      processAsgMsg ledger (.parsed c) = .ok (ledger, false))
  ∧ (∀ (ledger : Ledger) (c : JVal) (k : JLeaf),
      c.getItem "event" = .ok (.sstr "asg-setup") →
      c.getItem "status" = .ok (.sstr "success") →
      c.getItem "asg" = .ok k → k.hashable = false →
      processAsgMsg ledger (.parsed c) = .ok (ledger, false))
  ∧ (∀ ledger : Ledger, processAsgMsg ledger .invalid = .error PyErr.valueError)
  ∧ (∀ ledger : Ledger, processAsgMsg ledger (.parsed (.scalar .snull)) = .ok (ledger, true))
  ∧ (∀ (ledger : Ledger) (c : JVal) (ev : JLeaf),
      c.getItem "event" = .ok ev → ev ≠ .sstr "asg-setup" →
      processAsgMsg ledger (.parsed c) = .ok (ledger, true))
  ∧ (∀ (ledger : Ledger) (c : JVal) (st : JLeaf),
      c.getItem "event" = .ok (.sstr "asg-setup") →
      c.getItem "status" = .ok st → st ≠ .sstr "success" →
      processAsgMsg ledger (.parsed c) = .ok (ledger, true))
  ∧ (∀ (ledger : Ledger) (c : JVal) (k : JLeaf),
      c.getItem "event" = .ok (.sstr "asg-setup") →
      c.getItem "status" = .ok (.sstr "success") →
      c.getItem "asg" = .ok k → k.hashable = true →
      processAsgMsg ledger (.parsed c) = .ok (mergeNotice ledger k c, true)) := by
  refine ⟨?_, ?_, ?_, ?_, ?_, fun ledger => rfl, fun ledger => rfl, ?_, ?_, ?_⟩
  · intro ledger fields hev
    simp [processAsgMsg, classifyAsgMsg, JVal.getItem, hev]
  · intro ledger v hv
    simp [processAsgMsg, classifyAsgMsg, JVal.getItem, hv]
  · intro ledger c e hev hst
    obtain ⟨fields, rfl⟩ : ∃ fields, c = JVal.obj fields := by
      cases c with
      | scalar v => simp [JVal.getItem] at hev
      | obj fields => exact ⟨fields, rfl⟩
    simp [processAsgMsg, classifyAsgMsg, hev, hst]
  · intro ledger c e hev hst hasg
    obtain ⟨fields, rfl⟩ : ∃ fields, c = JVal.obj fields := by
      cases c with
      | scalar v => simp [JVal.getItem] at hev
      | obj fields => exact ⟨fields, rfl⟩
    simp [processAsgMsg, classifyAsgMsg, hev, hst, hasg]
  · intro ledger c k hev hst hasg hk
    obtain ⟨fields, rfl⟩ : ∃ fields, c = JVal.obj fields := by
      cases c with
      | scalar v => simp [JVal.getItem] at hev
      | obj fields => exact ⟨fields, rfl⟩
    simp [processAsgMsg, classifyAsgMsg, hev, hst, hasg, hk]
  · intro ledger c ev hev hne
    obtain ⟨fields, rfl⟩ : ∃ fields, c = JVal.obj fields := by
      cases c with
      | scalar v => simp [JVal.getItem] at hev
      | obj fields => exact ⟨fields, rfl⟩
    simp [processAsgMsg, classifyAsgMsg, hev, hne]
  · intro ledger c st hev hst hne
    obtain ⟨fields, rfl⟩ : ∃ fields, c = JVal.obj fields := by
      cases c with
      | scalar v => simp [JVal.getItem] at hev
      | obj fields => exact ⟨fields, rfl⟩
    simp [processAsgMsg, classifyAsgMsg, hev, hst, hne]
  · intro ledger c k hev hst hasg hk
    obtain ⟨fields, rfl⟩ : ∃ fields, c = JVal.obj fields := by
      cases c with
      | scalar v => simp [JVal.getItem] at hev
      | obj fields => exact ⟨fields, rfl⟩
    simp [processAsgMsg, classifyAsgMsg, hev, hst, hasg, hk]

/-- C3 witness: the amended statement applied at concrete inputs — a notice
missing its `event` field is left undeleted, a success notice whose `asg`
value is an (unhashable) array is left undeleted, and the demo worker
success notice is merged into the empty ledger and deleted. -/
theorem asg_msg_handling_amended_witness :
    processAsgMsg [] (.parsed (.obj [("status", .sstr "success")])) = .ok ([], false)
  ∧ processAsgMsg [] (.parsed (.obj [("event", .sstr "asg-setup"),
      ("status", .sstr "success"), ("asg", .sarr ["g1"])])) = .ok ([], false)
  ∧ processAsgMsg [] (.parsed demoWorkerNotice)
      = .ok (mergeNotice []
          (.sstr "cfn-test-WorkerAutoScalingGroup-1HPKVL6PJEVQS") demoWorkerNotice, true) := by
  refine ⟨?_, ?_, ?_⟩
  · exact asg_msg_handling_amended.1 [] [("status", .sstr "success")] (by decide)
  · exact asg_msg_handling_amended.2.2.2.2.1 []
      (.obj [("event", .sstr "asg-setup"), ("status", .sstr "success"),
        ("asg", .sarr ["g1"])])
      (.sarr ["g1"]) (by rfl) (by rfl) (by rfl) (by rfl)
  · exact asg_msg_handling_amended.2.2.2.2.2.2.2.2.2 [] demoWorkerNotice
      (.sstr "cfn-test-WorkerAutoScalingGroup-1HPKVL6PJEVQS")
      (by rfl) (by rfl) (by rfl) (by rfl)

/-! ## C7 -/

theorem ledgerHas_mergeNotice (ledger : Ledger) (k : JLeaf) (c : JVal) :
    ledgerHas (mergeNotice ledger k c) k = true := by
  unfold mergeNotice
  by_cases h : ledgerHas ledger k = true
  · rw [if_pos h]; exact h
  · rw [if_neg h]
    unfold ledgerHas
    simp

theorem processAsgMsg_stable {ledger l' : Ledger} {b : MsgBody} {d : Bool}
    (h : processAsgMsg ledger b = .ok (l', d)) :
    processAsgMsg l' b = .ok (l', d) := by
  unfold processAsgMsg at h ⊢
  cases hc : classifyAsgMsg b with
  | crash e => rw [hc] at h; exact absurd h (by simp)
  | skipNoDelete =>
    rw [hc] at h
    simp only [Except.ok.injEq, Prod.mk.injEq] at h
    show Except.ok (l', false) = Except.ok (l', d)
    rw [← h.2]
  | deleteOnly =>
    rw [hc] at h
    simp only [Except.ok.injEq, Prod.mk.injEq] at h
    show Except.ok (l', true) = Except.ok (l', d)
    rw [← h.2]
  | mergeAndDelete k c =>
    rw [hc] at h
    simp only [Except.ok.injEq, Prod.mk.injEq] at h
    have hmerge : ∀ L : Ledger, ledgerHas L k = true → mergeNotice L k c = L := by
      intro L hL
      unfold mergeNotice
      rw [if_pos hL]
    have hstable : mergeNotice l' k c = l' := by
      rw [← h.1]
      exact hmerge _ (ledgerHas_mergeNotice ledger k c)
    show Except.ok (mergeNotice l' k c, true) = Except.ok (l', d)
    rw [hstable, ← h.2]

theorem deliverRepeated_fix {ledger : Ledger} {b : MsgBody} {d : Bool}
    (h : processAsgMsg ledger b = .ok (ledger, d)) :
    ∀ n, deliverRepeated n ledger b = .ok ledger := by
  intro n
  induction n with
  | zero => rfl
  | succ m ih =>
    unfold deliverRepeated
    rw [h]
    exact ih

/-- C7: the launch-notice ledger merge is idempotent — delivering the same
message body `n > 1` successive times to the `wait_until_asg_success`
handler leaves the ledger exactly as delivering it once does, and merging a
notice whose group key is already present leaves the ledger unchanged
(the duplicate is discarded, never double-counted). -/
theorem launch_ledger_idempotent :
    (∀ (n : Nat) (ledger : Ledger) (b : MsgBody), 1 < n →
      deliverRepeated n ledger b = deliverRepeated 1 ledger b)
  ∧ (∀ (ledger : Ledger) (k : JLeaf) (c : JVal), ledgerHas ledger k = true →
      mergeNotice ledger k c = ledger) := by
  constructor
  · intro n ledger b hn
    obtain ⟨m, rfl⟩ : ∃ m, n = m + 1 := ⟨n - 1, by omega⟩
    show deliverRepeated (m + 1) ledger b = deliverRepeated (0 + 1) ledger b
    unfold deliverRepeated
    cases hp : processAsgMsg ledger b with
    | error e => rfl
    | ok p =>
      obtain ⟨l', d⟩ := p
      show deliverRepeated m l' b = deliverRepeated 0 l' b
      exact deliverRepeated_fix (processAsgMsg_stable hp) m
  · intro ledger k c h
    unfold mergeNotice
    rw [if_pos h]

/-- C7 witness: delivering the demo worker success notice three times to the
empty ledger equals delivering it once, and a direct duplicate merge on the
resulting one-entry ledger is discarded. -/
theorem launch_ledger_idempotent_witness :
    deliverRepeated 3 [] (.parsed demoWorkerNotice)
      = deliverRepeated 1 [] (.parsed demoWorkerNotice)
  ∧ mergeNotice [(JLeaf.sstr "g1", demoFailureNotice)] (JLeaf.sstr "g1") demoWorkerNotice
      = [(JLeaf.sstr "g1", demoFailureNotice)] := by
  constructor
  · exact launch_ledger_idempotent.1 3 [] (.parsed demoWorkerNotice) (by omega)
  · exact launch_ledger_idempotent.2 [(JLeaf.sstr "g1", demoFailureNotice)]
      (JLeaf.sstr "g1") demoWorkerNotice (by decide)


/-! ## C4 -/

theorem waitAsgLoop_timedOut_aux :
    ∀ n (ledger : Ledger) (sched : List (List MsgBody)) (timeout tick : Nat) (r : AsgRun),
      timeout ≤ 30 * tick + 30 * n →
      30 * tick ≤ timeout →
      waitAsgLoop ledger sched timeout tick = .ok r →
      r.outcome = AsgOutcome.timedOut →
      r.elapsed = 30 * (timeout / 30) := by
  intro n
  induction n with
  | zero =>
    intro ledger sched timeout tick r hb hlo hrun hout
    unfold waitAsgLoop at hrun
    cases hpb : processAsgBatch ledger (sched.headD []) with
    | error e => rw [hpb] at hrun; exact absurd hrun (by simp)
    | ok l' =>
      rw [hpb] at hrun
      dsimp only at hrun
      by_cases h2 : l'.length = 2
      · rw [if_pos h2] at hrun
        simp only [Except.ok.injEq] at hrun
        rw [← hrun] at hout
        exact absurd hout (by simp)
      · rw [if_neg h2, dif_pos (show 30 * (tick + 1) > timeout by omega)] at hrun
        simp only [Except.ok.injEq] at hrun
        rw [← hrun]
        show 30 * tick = 30 * (timeout / 30)
        omega
  | succ m ih =>
    intro ledger sched timeout tick r hb hlo hrun hout
    unfold waitAsgLoop at hrun
    cases hpb : processAsgBatch ledger (sched.headD []) with
    | error e => rw [hpb] at hrun; exact absurd hrun (by simp)
    | ok l' =>
      rw [hpb] at hrun
      dsimp only at hrun
      by_cases h2 : l'.length = 2
      · rw [if_pos h2] at hrun
        simp only [Except.ok.injEq] at hrun
        rw [← hrun] at hout
        exact absurd hout (by simp)
      · rw [if_neg h2] at hrun
        by_cases hc : 30 * (tick + 1) > timeout
        · rw [dif_pos hc] at hrun
          simp only [Except.ok.injEq] at hrun
          rw [← hrun]
          show 30 * tick = 30 * (timeout / 30)
          omega
        · rw [dif_neg hc] at hrun
          cases hrec : waitAsgLoop l' sched.tail timeout (tick + 1) with
          | error e => rw [hrec] at hrun; exact absurd hrun (by simp)
          | ok r' =>
            rw [hrec] at hrun
            dsimp only at hrun
            simp only [Except.ok.injEq] at hrun
            rw [← hrun] at hout ⊢
            exact ih l' sched.tail timeout (tick + 1) r' (by omega) (by omega) hrec hout

theorem waitAsgLoop_sleeps_aux :
    ∀ n (ledger : Ledger) (sched : List (List MsgBody)) (timeout tick : Nat) (r : AsgRun),
      timeout ≤ 30 * tick + 30 * n →
      waitAsgLoop ledger sched timeout tick = .ok r →
      ∀ x ∈ r.sleepTargets, x ≤ timeout := by
  intro n
  induction n with
  | zero =>
    intro ledger sched timeout tick r hb hrun
    unfold waitAsgLoop at hrun
    cases hpb : processAsgBatch ledger (sched.headD []) with
    | error e => rw [hpb] at hrun; exact absurd hrun (by simp)
    | ok l' =>
      rw [hpb] at hrun
      dsimp only at hrun
      by_cases h2 : l'.length = 2
      · rw [if_pos h2] at hrun
        simp only [Except.ok.injEq] at hrun
        rw [← hrun]
        simp
      · rw [if_neg h2, dif_pos (show 30 * (tick + 1) > timeout by omega)] at hrun
        simp only [Except.ok.injEq] at hrun
        rw [← hrun]
        simp
  | succ m ih =>
    intro ledger sched timeout tick r hb hrun
    unfold waitAsgLoop at hrun
    cases hpb : processAsgBatch ledger (sched.headD []) with
    | error e => rw [hpb] at hrun; exact absurd hrun (by simp)
    | ok l' =>
      rw [hpb] at hrun
      dsimp only at hrun
      by_cases h2 : l'.length = 2
      · rw [if_pos h2] at hrun
        simp only [Except.ok.injEq] at hrun
        rw [← hrun]
        simp
      · rw [if_neg h2] at hrun
        by_cases hc : 30 * (tick + 1) > timeout
        · rw [dif_pos hc] at hrun
          simp only [Except.ok.injEq] at hrun
          rw [← hrun]
          simp
        · rw [dif_neg hc] at hrun
          cases hrec : waitAsgLoop l' sched.tail timeout (tick + 1) with
          | error e => rw [hrec] at hrun; exact absurd hrun (by simp)
          | ok r' =>
            rw [hrec] at hrun
            dsimp only at hrun
            simp only [Except.ok.injEq] at hrun
            rw [← hrun]
            intro x hx
            simp only [List.mem_cons] at hx
            cases hx with
            | inl hxx => omega
            | inr hxx => exact ih l' sched.tail timeout (tick + 1) r' (by omega) hrec x hxx

/-- C4 counterexample: with a 5-second budget and no messages ever
arriving, `wait_until_asg_success` returns the timeout result at virtual
elapsed time 0 — strictly before the 5-second budget boundary (the first
deadline check already sees `next_execution_ts = start + 30 > start + 5`),
refuting "exactly at the budget boundary — not before it". -/
theorem asg_timeout_not_at_boundary_cex :
    waitAsgLoop [] [] 5 0 = .ok ⟨[], 0, .timedOut, []⟩ ∧ (0 : Nat) ≠ 5 := by
  constructor
  · simp [waitAsgLoop, processAsgBatch]
  · decide

/-- C4 amended: when the expected groups never both report success, the
watcher fails with timeout at virtual elapsed time `30·⌊timeout/30⌋` — the
last 30-second tick that does not pass the deadline, which is at most the
budget (so a 5-second budget returns within 5 seconds, in fact immediately)
but can be up to 30 seconds before the exact boundary; and every sleep ends
at a tick that is at most the deadline, so the loop never sleeps past it. -/
theorem asg_timeout_last_tick :
    (∀ (ledger : Ledger) (sched : List (List MsgBody)) (timeout : Nat) (r : AsgRun),
      waitAsgLoop ledger sched timeout 0 = .ok r →
      r.outcome = AsgOutcome.timedOut →
      r.elapsed = 30 * (timeout / 30) ∧ r.elapsed ≤ timeout)
  ∧ (∀ (ledger : Ledger) (sched : List (List MsgBody)) (timeout : Nat) (r : AsgRun),
      waitAsgLoop ledger sched timeout 0 = .ok r →
      ∀ x ∈ r.sleepTargets, x ≤ timeout)
  ∧ waitAsgLoop [] [] 5 0 = .ok ⟨[], 0, .timedOut, []⟩ := by
  refine ⟨?_, ?_, ?_⟩
  · intro ledger sched timeout r hrun hout
    have he := waitAsgLoop_timedOut_aux timeout ledger sched timeout 0 r (by omega) (by omega)
      hrun hout
    refine ⟨he, ?_⟩
    rw [he]
    omega
  · intro ledger sched timeout r hrun
    exact waitAsgLoop_sleeps_aux timeout ledger sched timeout 0 r (by omega) hrun
  · simp [waitAsgLoop, processAsgBatch]

/-- C4 witness: the amended statement applied at a 65-second budget with no
messages — the loop sleeps to ticks 30 and 60 (both within the budget) and
times out at elapsed 60 = 30·⌊65/30⌋. -/
theorem asg_timeout_last_tick_witness :
    (60 : Nat) = 30 * (65 / 30) ∧ (60 : Nat) ≤ 65 ∧ (30 : Nat) ≤ 65 := by
  have hrun : waitAsgLoop [] [] 65 0 = .ok ⟨[], 60, .timedOut, [30, 60]⟩ := by
    simp [waitAsgLoop, processAsgBatch]
  have h1 := asg_timeout_last_tick.1 [] [] 65 ⟨[], 60, .timedOut, [30, 60]⟩ hrun rfl
  have h2 := asg_timeout_last_tick.2.1 [] [] 65 ⟨[], 60, .timedOut, [30, 60]⟩ hrun 30
    (by simp)
  exact ⟨h1.1, h1.2, h2⟩

/-! ## C8 -/

theorem waitWorkerLoopCh_channel_aux :
    ∀ n (ch : List MsgBody) (timeout tick : Nat),
      timeout ≤ 30 * tick + 30 * n →
      (waitWorkerLoopCh ch timeout tick).2 = ch := by
  intro n
  induction n with
  | zero =>
    intro ch timeout tick hb
    unfold waitWorkerLoopCh
    cases hpb : processWorkerBatch (ch.take 10) with
    | error e => rfl
    | ok o =>
      cases o with
      | none =>
        dsimp only
        rw [dif_pos (show 30 * (tick + 1) > timeout by omega)]
      | some p => rfl
  | succ m ih =>
    intro ch timeout tick hb
    unfold waitWorkerLoopCh
    cases hpb : processWorkerBatch (ch.take 10) with
    | error e => rfl
    | ok o =>
      cases o with
      | none =>
        dsimp only
        by_cases hc : 30 * (tick + 1) > timeout
        · rw [dif_pos hc]
        · rw [dif_neg hc]
          exact ih ch timeout (tick + 1) (by omega)
      | some p => rfl

theorem processWorkerMsg_spec (c : JVal) :
    (isValidWorkerSetup (.parsed c) = true
      ∧ ∃ m w, processWorkerMsg (.parsed c) = .ret m w
          ∧ extractPair (.parsed c) = some (m, w))
  ∨ (isValidWorkerSetup (.parsed c) = false ∧ processWorkerMsg (.parsed c) = .skip) := by
  cases c with
  | scalar v =>
    right
    refine ⟨rfl, ?_⟩
    by_cases hv : v = JLeaf.snull
    · subst hv; rfl
    · simp [processWorkerMsg, JVal.getItem, hv]
  | obj fields =>
    rcases he : fields.lookup "event" with _ | ev
    · right
      constructor
      · simp [isValidWorkerSetup, he]
      · simp [processWorkerMsg, JVal.getItem, he]
    · by_cases hev : ev = JLeaf.sstr "worker-setup"
      · subst hev
        rcases hm : fields.lookup "master-ip" with _ | m
        · right
          constructor
          · simp [isValidWorkerSetup, he, hm]
          · simp [processWorkerMsg, JVal.getItem, he, hm]
        · rcases hw : fields.lookup "worker-ips" with _ | w
          · right
            constructor
            · simp [isValidWorkerSetup, he, hm, hw]
            · simp [processWorkerMsg, JVal.getItem, he, hm, hw]
          · left
            refine ⟨?_, m, w, ?_, ?_⟩
            · simp [isValidWorkerSetup, he, hm, hw]
            · simp [processWorkerMsg, JVal.getItem, he, hm, hw]
            · simp [extractPair, JVal.getItem, he, hm, hw]
      · right
        constructor
        · simp [isValidWorkerSetup, he, hev]
        · simp [processWorkerMsg, JVal.getItem, he, hev]

theorem processWorkerBatch_find :
    ∀ batch : List MsgBody, (∀ b ∈ batch, b ≠ MsgBody.invalid) →
      processWorkerBatch batch = .ok ((batch.find? isValidWorkerSetup).bind extractPair) := by
  intro batch
  induction batch with
  | nil => intro h; rfl
  | cons b rest ih =>
    intro h
    have hb : b ≠ MsgBody.invalid := h b (List.mem_cons_self b rest)
    obtain ⟨c, rfl⟩ : ∃ c, b = MsgBody.parsed c := by
      cases b with
      | invalid => exact absurd rfl hb
      | parsed c => exact ⟨c, rfl⟩
    rcases processWorkerMsg_spec c with ⟨hv, m, w, hret, hex⟩ | ⟨hv, hskip⟩
    · unfold processWorkerBatch
      rw [hret, List.find?_cons_of_pos _ hv]
      dsimp only [Option.bind]
      rw [hex]
    · unfold processWorkerBatch
      rw [hskip, List.find?_cons_of_neg _ (by simp [hv])]
      exact ih fun x hx => h x (List.mem_cons_of_mem _ hx)

/-- C8: the worker-side broadcast wait receives with visibility window 0
(line 196), never deletes any message — the channel state is unchanged on
every path of the loop, so the broadcast stays visible to every concurrent
worker reader — and its batch handler skips every message that is not a
valid `worker-setup` broadcast and returns the
`(master-ip, worker-ips)` pair of the first valid broadcast in receive
order (stated for batches of parseable payloads; a syntactically malformed
payload is the crash case treated with `wait_until_asg_success`). -/
theorem worker_setup_wait_first_valid :
    workerSetupReceiveCall.visibilityTimeout = 0
  ∧ (∀ (ch : List MsgBody) (timeout tick : Nat),
      (waitWorkerLoopCh ch timeout tick).2 = ch)
  ∧ (∀ batch : List MsgBody, (∀ b ∈ batch, b ≠ MsgBody.invalid) →
      processWorkerBatch batch = .ok ((batch.find? isValidWorkerSetup).bind extractPair)) := by
  refine ⟨rfl, ?_, processWorkerBatch_find⟩
  intro ch timeout tick
  exact waitWorkerLoopCh_channel_aux timeout ch timeout tick (by omega)

/-- C8 witness: a batch holding an unrelated `asg-setup` notice followed by
the demo broadcast yields the broadcast's pair (the unrelated message is
skipped), and a one-message channel passes through the loop undeleted. -/
theorem worker_setup_wait_first_valid_witness :
    processWorkerBatch [demoOtherEvent, demoBroadcast]
      = .ok (some (JLeaf.sstr "10.0.0.1", JLeaf.sarr ["10.0.0.1", "10.0.0.2"]))
  ∧ (waitWorkerLoopCh [demoBroadcast] 5 0).2 = [demoBroadcast] := by
  constructor
  · have h := worker_setup_wait_first_valid.2.2 [demoOtherEvent, demoBroadcast] (by decide)
    rw [h]
    rfl
  · exact worker_setup_wait_first_valid.2.1 [demoBroadcast] 5 0

/-! ## C10 -/

theorem waitWorkerLoopCh_nil_aux :
    ∀ n (timeout tick : Nat), timeout ≤ 30 * tick + 30 * n →
      (waitWorkerLoopCh [] timeout tick).1 = .ok PyVal.pynone := by
  intro n
  induction n with
  | zero =>
    intro timeout tick hb
    unfold waitWorkerLoopCh
    dsimp only [List.take_nil, processWorkerBatch]
    rw [dif_pos (show 30 * (tick + 1) > timeout by omega)]
  | succ m ih =>
    intro timeout tick hb
    unfold waitWorkerLoopCh
    dsimp only [List.take_nil, processWorkerBatch]
    by_cases hc : 30 * (tick + 1) > timeout
    · rw [dif_pos hc]
    · rw [dif_neg hc]
      exact ih timeout (tick + 1) (by omega)

/-- C10: when `wait_for_worker_setup_message` times out (modelled with an
empty channel) it returns the single value `None` (line 220), never a pair;
in `main`'s worker branch the tuple-unpacking assignment at line 494 then
raises `TypeError` before the explicit `is None` check at line 495 can run,
so the run ends through the outermost exception handler's `sys.exit(1)`
(line 505) — the `is None` error branch is unreachable on timeout. -/
theorem worker_timeout_none_unpack_typeerror :
    (∀ timeout : Nat, (waitWorkerLoopCh [] timeout 0).1 = .ok PyVal.pynone)
  ∧ (∀ (a b : JLeaf),
      (Except.ok PyVal.pynone : Except PyErr PyVal) ≠ .ok (PyVal.pytuple2 a b))
  ∧ (∀ (ch : List MsgBody) (timeout tick : Nat),
      (waitWorkerLoopCh ch timeout tick).1 = .ok PyVal.pynone →
      mainWorkerBranch (waitWorkerLoopCh ch timeout tick).1 = WorkerExit.outerHandlerExit)
  ∧ mainWorkerBranch (.ok PyVal.pynone) = WorkerExit.outerHandlerExit
  ∧ WorkerExit.outerHandlerExit ≠ WorkerExit.noneCheckExit := by
  refine ⟨?_, ?_, ?_, rfl, by decide⟩
  · intro timeout
    exact waitWorkerLoopCh_nil_aux timeout timeout 0 (by omega)
  · intro a b h
    simp at h
  · intro ch timeout tick h
    rw [h]
    rfl

/-- C10 witness: a 5-second budget with an empty channel times out with the
bare `None`, which the worker branch turns into the outer-handler failure
exit. -/
theorem worker_timeout_none_unpack_typeerror_witness :
    mainWorkerBranch (waitWorkerLoopCh [] 5 0).1 = WorkerExit.outerHandlerExit := by
  have h : (waitWorkerLoopCh [] 5 0).1 = .ok PyVal.pynone := by
    simp [waitWorkerLoopCh, processWorkerBatch]
  exact worker_timeout_none_unpack_typeerror.2.2.1 [] 5 0 h
